import Mathlib

/-!
Verification of the execution/metrics lifecycle engine of
`kerastuner/engine/instance.py` (class `Instance`): training/validation size
derivation, lazy metric-schema initialization shared with a tuner-level
schema, and aggregation of per-execution metric extrema into a persisted
result record.

Python values are embedded shallowly: machine/Python numbers as `Nat`, `Int`
and `ℚ` (exact arithmetic; `int()` truncation is explicit), Python dicts as
ordered association lists, and fallible Python code as `Except PyErr`.
-/

namespace KT

/-- Python exception classes that the embedded code can raise. -/
inductive PyErr
  | attributeError (name : String)
  | nameError (name : String)
  | unboundLocalError (name : String)
  | typeError (msg : String)
  | keyError (name : String)
  | configError (msg : String)
deriving DecidableEq, Repr

/-- A metric identifier as the trainable model reports it: either a bare
string or an object exposing a `.name` attribute (duck typing in
`instance.py` lines 85-88 and 103-106). -/
inductive PyName
  | str (s : String)
  | obj (name : String)
deriving DecidableEq, Repr

/-- Name extraction: `metric.name` for objects, the string itself otherwise
(`instance.py` lines 85-88). -/
def PyName.extract : PyName → String
  | .str s => s
  | .obj n => n

/-- Optimization direction of a metric. -/
inductive Direction
  | min
  | max
deriving DecidableEq, Repr

/-- A named scalar with an optimization direction; `isObj` marks it as the
search objective. -/
structure Metric where
  name : String
  direction : Direction
  isObj : Bool
deriving DecidableEq, Repr

/-- One entry of the serialized schema descriptor (`to_config` output). -/
structure MetricCfg where
  name : String
  direction : Direction
  isObj : Bool
deriving DecidableEq, Repr

/-- Modelled from the spec: `MetricsCollection` (in `kerastuner.collections`,
outside `src/`) is an ordered, name-keyed set of Metrics, insertion order
preserved, names unique. -/
structure MetricsCollection where
  metrics : List Metric
deriving DecidableEq, Repr

/-- Modelled from the spec: `MetricsCollection.add`. The spec leaves
duplicate-name semantics open (overwrite vs reject); deterministic
overwrite-in-place is chosen, fresh names are appended in insertion order. -/
def MetricsCollection.addMetric (c : MetricsCollection) (m : Metric) :
    MetricsCollection :=
  if c.metrics.any (fun x => x.name = m.name) then
    ⟨c.metrics.map (fun x => if x.name = m.name then m else x)⟩
  else
    ⟨c.metrics ++ [m]⟩

/-- Modelled from the spec: `MetricsCollection.set_objective` marks the named
metric as the search target and fails with a configuration error when the
name is absent. -/
def MetricsCollection.set_objective (c : MetricsCollection) (name : String) :
    Except PyErr MetricsCollection :=
  if c.metrics.any (fun x => x.name = name) then
    .ok ⟨c.metrics.map (fun x => { x with isObj := x.name = name })⟩
  else
    .error (.configError ("objective metric not found: " ++ name))

/-- Modelled from the spec: serialization of a collection to an ordered list
of `{name, direction}` entries with the objective flag. -/
def MetricsCollection.to_config (c : MetricsCollection) : List MetricCfg :=
  c.metrics.map (fun m => ⟨m.name, m.direction, m.isObj⟩)

/-- Modelled from the spec: `MetricsCollection.from_config` seeds a second,
independent collection from a serialized schema descriptor (lossless
round-trip). -/
def MetricsCollection.from_config (cfg : List MetricCfg) : MetricsCollection :=
  ⟨cfg.map (fun e => ⟨e.name, e.direction, e.isObj⟩)⟩

/-- A value of a named-losses dict: a serializable string or a custom
callable object (not JSON-serializable). -/
inductive LossVal
  | str (s : String)
  | callableObj (name : String)
deriving DecidableEq, Repr

/-- The forms `model.loss` may take (`instance.py` comment line 92:
"model.loss in {str, dict, list}"), plus a bare custom callable. -/
inductive Loss
  | single (s : String)
  | callableLoss (name : String)
  | mapping (entries : List (String × LossVal))
  | listOf (items : List PyName)
deriving DecidableEq, Repr

/-- The trainable-model collaborator surface used by `Instance`. -/
structure Model where
  metrics : List PyName
  loss : Loss
  loss_weights : Option (List ℚ)
deriving DecidableEq, Repr

/-- Lines 93-98: normalize `model.loss` to a list of loss names.
The dict branch executes `losses = list(losses.keys())`, reading the local
`losses` before any assignment to it, so it raises `UnboundLocalError`.
A bare callable loss reaches `losses = self.model.loss` and then fails at
`for loss in losses:` because a function is not iterable. -/
def computeLosses : Loss → Except PyErr (List PyName)
  | .single _ => .ok [.str "loss"]
  | .mapping _ => .error (.unboundLocalError "losses")
  | .callableLoss _ => .error (.typeError "object is not iterable")
  | .listOf items => .ok items

/-- Lines 81-90: register one model metric, plus its `val_` twin when
`validation_size` is truthy (non-zero). -/
def addModelMetric (vs : Int) (c : MetricsCollection) (metric : PyName) :
    MetricsCollection :=
  let c := c.addMetric ⟨metric.extract, .max, false⟩
  if vs ≠ 0 then c.addMetric ⟨"val_" ++ metric.extract, .max, false⟩ else c

/-- Lines 100-108: register one loss as a `min`-direction metric, plus its
`val_` twin when `validation_size` is truthy. -/
def addLossMetric (vs : Int) (c : MetricsCollection) (loss : PyName) :
    MetricsCollection :=
  let c := c.addMetric ⟨loss.extract, .min, false⟩
  if vs ≠ 0 then c.addMetric ⟨"val_" ++ loss.extract, .min, false⟩ else c

/-- Lines 78-111: build the per-instance metric schema from the model's
declared metrics and losses and mark the tuner objective. -/
def initAggMetrics (model : Model) (vs : Int) (objective : String) :
    Except PyErr MetricsCollection :=
  let c := model.metrics.foldl (addModelMetric vs) ⟨[]⟩
  match computeLosses model.loss with
  | .error e => .error e
  | .ok losses => (losses.foldl (addLossMetric vs) c).set_objective objective

/-- The training input `x`: either a `tf.keras.utils.Sequence` whose Python
length reports the number of batches, or a plain array whose length reports
the number of samples. -/
inductive FitInput
  | sequence (batches : Nat)
  | array (samples : Nat)
deriving DecidableEq, Repr

/-- The keyword arguments of `Instance.fit` that the engine reads. The
`validation_data` pair is represented by the lengths of its two components
(only `len(validation_data[1])` is read). -/
structure FitKwargs where
  batch_size : Option Nat
  validation_data : Option (Nat × Nat)
  validation_split : Option ℚ
deriving DecidableEq, Repr

/-- Lines 57-61: derived training size before any validation split. -/
def derivedTrainingSize (x : FitInput) (batch_size : Nat) : Nat :=
  match x with
  | .sequence batches => (batches + 2) * batch_size
  | .array samples => samples

/-- Python `int()` on an exact rational: truncation toward zero. -/
def pyInt (q : ℚ) : Int := if 0 ≤ q then ⌊q⌋ else -⌊-q⌋

/-- Lines 63-74: validation sizing. Priority: a provided `validation_data`
pair (always truthy) wins; else a truthy (non-zero) `validation_split`;
else `validation_size = 0`. Both sizes pass through `int()` at the end. -/
def validationSizing (T0 : Nat) (kw : FitKwargs) : Int × Int :=
  match kw.validation_data with
  | some vd => (pyInt (T0 : ℚ), pyInt (vd.2 : ℚ))
  | none =>
    match kw.validation_split with
    | some s =>
      if s ≠ 0 then
        let val : ℚ := (T0 : ℚ) * s
        (pyInt ((T0 : ℚ) - val), pyInt val)
      else (pyInt (T0 : ℚ), pyInt 0)
    | none => (pyInt (T0 : ℚ), pyInt 0)

/-- The fields of `InstanceState` that `Instance.fit` reads or writes.
`agg_metrics` starts unset (`None`-like); the guard at line 77 tests it. -/
structure InstanceState where
  batch_size : Nat
  training_size : Int
  validation_size : Int
  agg_metrics : Option MetricsCollection
  execution_trained : Nat
deriving DecidableEq, Repr

/-- The fields of the shared `TunerState` that `Instance.fit` reads or
writes. -/
structure TunerState where
  objective : String
  agg_metrics : Option MetricsCollection
  display_model : Bool
deriving DecidableEq, Repr

/-- The attributes of an `Instance` object that `fit` touches. Executions
are external; only their count is tracked here. -/
structure InstanceObj where
  model : Model
  state : InstanceState
  metrics_config : Option (List MetricCfg)
  executionsCount : Nat
deriving DecidableEq, Repr

/-- Lines 38-137, `Instance.fit`: record the batch size, derive the sizes,
lazily initialize the per-instance schema (guarded by the schema being
unset) and, inside that same block, adopt the serialized schema at tuner
level when the tuner-level schema is unset; then run one more execution.
Display calls (lines 119-124) have no state effect and are omitted. -/
def fit (ts : TunerState) (inst : InstanceObj) (x : FitInput)
    (kw : FitKwargs) : Except PyErr (TunerState × InstanceObj) :=
  let batch_size := kw.batch_size.getD 32
  let T0 := derivedTrainingSize x batch_size
  let sizes := validationSizing T0 kw
  let st0 := { inst.state with
                batch_size := batch_size
                training_size := sizes.1
                validation_size := sizes.2 }
  match st0.agg_metrics with
  | some _ =>
      .ok (ts, { inst with
                  state := { st0 with
                              execution_trained := st0.execution_trained + 1 }
                  executionsCount := inst.executionsCount + 1 })
  | none =>
      match initAggMetrics inst.model sizes.2 ts.objective with
      | .error e => .error e
      | .ok c =>
        let mc := c.to_config
        let tsOut :=
          if ts.agg_metrics.isSome then ts
          else { ts with
                  agg_metrics := some (MetricsCollection.from_config mc) }
        .ok (tsOut,
             { inst with
                state := { st0 with
                            agg_metrics := some c
                            execution_trained := st0.execution_trained + 1 }
                metrics_config := some mc
                executionsCount := inst.executionsCount + 1 })

/-! Sample concrete objects used by witnesses and counterexamples. -/

/-- A one-metric schema, objective `loss`. -/
def mcLoss : MetricsCollection := ⟨[⟨"loss", .min, true⟩]⟩

/-- A model declaring one metric and a single string loss. -/
def sampleModel : Model := ⟨[.str "accuracy"], .single "mse", none⟩

/-- A tuner state whose schema is already set. -/
def tsReady : TunerState := ⟨"loss", some mcLoss, false⟩

/-- A tuner state whose schema is not yet set. -/
def tsFresh : TunerState := ⟨"loss", none, false⟩

/-- An instance whose per-instance schema is already set. -/
def instReady : InstanceObj :=
  ⟨sampleModel, ⟨32, 0, 0, some mcLoss, 0⟩, some mcLoss.to_config, 0⟩

/-- An instance whose per-instance schema is not yet set. -/
def instFresh : InstanceObj := ⟨sampleModel, ⟨32, 0, 0, none, 0⟩, none, 0⟩

/-! Helper lemmas about `pyInt` and `fit`. -/

theorem pyInt_natCast (n : Nat) : pyInt (n : ℚ) = n := by
  simp [pyInt]

theorem pyInt_zero : pyInt (0 : ℚ) = 0 := by
  simp [pyInt]

/-- Evaluation of `fit` when the per-instance schema is already set: no
schema work happens, only sizes and counters change. -/
theorem fit_of_schema_set (ts : TunerState) (inst : InstanceObj)
    (x : FitInput) (kw : FitKwargs) (c : MetricsCollection)
    (h : inst.state.agg_metrics = some c) :
    fit ts inst x kw =
      .ok (ts,
        { inst with
            state :=
              { inst.state with
                  batch_size := kw.batch_size.getD 32
                  training_size :=
                    (validationSizing
                      (derivedTrainingSize x (kw.batch_size.getD 32)) kw).1
                  validation_size :=
                    (validationSizing
                      (derivedTrainingSize x (kw.batch_size.getD 32)) kw).2
                  execution_trained := inst.state.execution_trained + 1 }
            executionsCount := inst.executionsCount + 1 }) := by
  simp only [fit, h]

/-- Claim C1: in `Instance.fit`, a `tf.keras.utils.Sequence` input of length
`L` with batch size `B` yields derived `training_size = (L+2)*B`, and any
other input of length `N` yields `training_size = N` (observed on the
post-`fit` state when no validation option is passed). -/
theorem training_size_derivation (ts : TunerState) (inst : InstanceObj)
    (B : Nat) (c : MetricsCollection)
    (h : inst.state.agg_metrics = some c) :
    (∀ L, ∃ p, fit ts inst (.sequence L) ⟨some B, none, none⟩ = .ok p ∧
        derivedTrainingSize (.sequence L) B = (L + 2) * B ∧
        p.2.state.training_size = ((L + 2) * B : Nat)) ∧
    (∀ N, ∃ p, fit ts inst (.array N) ⟨some B, none, none⟩ = .ok p ∧
        derivedTrainingSize (.array N) B = N ∧
        p.2.state.training_size = (N : Nat)) := by
  constructor
  · intro L
    refine ⟨_, fit_of_schema_set ts inst _ _ c h, rfl, ?_⟩
    simp only [validationSizing, derivedTrainingSize, Option.getD_some,
      pyInt_natCast]
  · intro N
    refine ⟨_, fit_of_schema_set ts inst _ _ c h, rfl, ?_⟩
    simp only [validationSizing, derivedTrainingSize, Option.getD_some,
      pyInt_natCast]

/-- Witness for C1 at concrete inputs: a 3-batch sequence with batch size 10
gives training_size 50; a 100-sample array gives training_size 100. -/
theorem training_size_derivation_witness :
    (∃ p, fit tsReady instReady (.sequence 3) ⟨some 10, none, none⟩ = .ok p ∧
        derivedTrainingSize (.sequence 3) 10 = (3 + 2) * 10 ∧
        p.2.state.training_size = ((3 + 2) * 10 : Nat)) ∧
    (∃ p, fit tsReady instReady (.array 100) ⟨some 10, none, none⟩ = .ok p ∧
        derivedTrainingSize (.array 100) 10 = 100 ∧
        p.2.state.training_size = (100 : Nat)) :=
  ⟨(training_size_derivation tsReady instReady 10 mcLoss rfl).1 3,
   (training_size_derivation tsReady instReady 10 mcLoss rfl).2 100⟩

/-- The split arithmetic: truncating `T0 - v` and `v` separately loses one
unit exactly when `v` is not an integer. -/
theorem pyInt_split (T0 : Nat) (v : ℚ) (h0 : 0 ≤ v) (hT : v ≤ T0) :
    pyInt ((T0 : ℚ) - v) + pyInt v =
      if v.den = 1 then (T0 : ℤ) else (T0 : ℤ) - 1 := by
  have hnn : (0 : ℚ) ≤ (T0 : ℚ) - v := by linarith
  rw [pyInt, pyInt, if_pos hnn, if_pos h0]
  have hcast : (T0 : ℚ) - v = ((T0 : ℤ) : ℚ) + (-v) := by push_cast; ring
  rw [hcast, Int.floor_int_add, Int.floor_neg]
  by_cases hden : v.den = 1
  · rw [if_pos hden]
    obtain hv := (Rat.den_eq_one_iff v).mp hden
    rw [← hv, Int.ceil_intCast, Int.floor_intCast]
    ring
  · rw [if_neg hden]
    have hne : (⌊v⌋ : ℚ) ≠ v := by
      intro hv
      exact hden (hv ▸ Rat.den_intCast ⌊v⌋)
    have hceil : ⌈v⌉ = ⌊v⌋ + 1 := by
      refine le_antisymm ?_ ?_
      · rw [Int.ceil_le]
        push_cast
        exact (Int.lt_floor_add_one v).le
      · rw [Int.add_one_le_iff]
        refine lt_of_le_of_ne (Int.floor_le_ceil v) ?_
        intro hfc
        refine hne (le_antisymm (Int.floor_le v) ?_)
        calc v ≤ (⌈v⌉ : ℚ) := Int.le_ceil v
        _ = (⌊v⌋ : ℚ) := by exact_mod_cast hfc.symm
    rw [hceil]
    ring

/-- Counterexample for C2 as stated: with the schema already set, input an
array of length 10 and `validation_split = 1/4`, the derived `T0` is 10 but
the post-split sizes are 7 and 2, summing to 9, not 10. -/
theorem validation_split_sum_counterexample :
    ∃ p, fit tsReady instReady (.array 10) ⟨none, none, some (1/4)⟩ = .ok p ∧
      derivedTrainingSize (.array 10) 32 = 10 ∧
      p.2.state.training_size = 7 ∧
      p.2.state.validation_size = 2 ∧
      p.2.state.training_size + p.2.state.validation_size ≠ 10 := by
  refine ⟨_, fit_of_schema_set tsReady instReady _ _ mcLoss rfl, rfl, ?_, ?_, ?_⟩
  · show (validationSizing 10 ⟨none, none, some (1/4)⟩).1 = 7
    norm_num [validationSizing, pyInt]
  · show (validationSizing 10 ⟨none, none, some (1/4)⟩).2 = 2
    norm_num [validationSizing, pyInt]
  · show (validationSizing 10 ⟨none, none, some (1/4)⟩).1 +
        (validationSizing 10 ⟨none, none, some (1/4)⟩).2 ≠ 10
    norm_num [validationSizing, pyInt]

/-- Claim C2 (amended): for a `fit` call with `validation_split = s ∈ [0,1)`
and no `validation_data`, letting `T0` be the pre-split derived training
size, the truncated post-split sizes sum to `T0` exactly when `T0 * s` is an
integer, and to `T0 - 1` otherwise. -/
theorem validation_split_sum (ts : TunerState) (inst : InstanceObj)
    (x : FitInput) (B : Nat) (s : ℚ) (c : MetricsCollection)
    (h : inst.state.agg_metrics = some c) (h0 : 0 ≤ s) (h1 : s < 1) :
    ∃ p, fit ts inst x ⟨some B, none, some s⟩ = .ok p ∧
      p.2.state.training_size + p.2.state.validation_size =
        (if ((derivedTrainingSize x B : ℚ) * s).den = 1
         then (derivedTrainingSize x B : ℤ)
         else (derivedTrainingSize x B : ℤ) - 1) := by
  refine ⟨_, fit_of_schema_set ts inst _ _ c h, ?_⟩
  show (validationSizing (derivedTrainingSize x B) ⟨some B, none, some s⟩).1 +
      (validationSizing (derivedTrainingSize x B) ⟨some B, none, some s⟩).2 = _
  set T0 := derivedTrainingSize x B with hT0
  by_cases hs : s = 0
  · subst hs
    simp [validationSizing, pyInt_natCast, pyInt_zero]
  · have hv0 : 0 ≤ (T0 : ℚ) * s := by positivity
    have hvT : (T0 : ℚ) * s ≤ T0 := by
      calc (T0 : ℚ) * s ≤ (T0 : ℚ) * 1 := by
            exact mul_le_mul_of_nonneg_left h1.le (by positivity)
      _ = T0 := by ring
    simp only [validationSizing, if_neg (fun hc => hs hc), hs, ite_not]
    simpa using pyInt_split T0 ((T0 : ℚ) * s) hv0 hvT

/-- Witness for C2 (amended) at concrete inputs: array of length 100 with
split 1/5 gives an integral product (20), so the sizes sum to 100; the
hypotheses 0 ≤ 1/5 < 1 hold. -/
theorem validation_split_sum_witness :
    ∃ p, fit tsReady instReady (.array 100) ⟨some 32, none, some (1/5)⟩ =
        .ok p ∧
      p.2.state.training_size + p.2.state.validation_size =
        (if ((derivedTrainingSize (.array 100) 32 : ℚ) * (1/5)).den = 1
         then (derivedTrainingSize (.array 100) 32 : ℤ)
         else (derivedTrainingSize (.array 100) 32 : ℤ) - 1) :=
  validation_split_sum tsReady instReady (.array 100) 32 (1/5) mcLoss rfl
    (by norm_num) (by norm_num)

/-- The schema that the first `fit` of `instFresh` builds: the declared
metric (max) then the single loss under the name `loss` (min, objective). -/
def mcFreshBuilt : MetricsCollection :=
  ⟨[⟨"accuracy", .max, false⟩, ⟨"loss", .min, true⟩]⟩

/-- Round-trip: reconstructing a collection from its serialized config gives
a structurally equal collection. -/
theorem from_to_config (c : MetricsCollection) :
    MetricsCollection.from_config c.to_config = c := by
  cases c with
  | mk ms =>
    simp only [MetricsCollection.to_config, MetricsCollection.from_config,
      List.map_map]
    congr 1
    exact List.map_id ms

/-- Evaluation of `fit` when the per-instance schema is unset and schema
construction succeeds. -/
theorem fit_of_schema_unset (ts : TunerState) (inst : InstanceObj)
    (x : FitInput) (kw : FitKwargs) (c : MetricsCollection)
    (hnone : inst.state.agg_metrics = none)
    (hinit : initAggMetrics inst.model
        (validationSizing (derivedTrainingSize x (kw.batch_size.getD 32))
          kw).2 ts.objective = .ok c) :
    fit ts inst x kw =
      .ok ((if ts.agg_metrics.isSome then ts
            else { ts with
                    agg_metrics :=
                      some (MetricsCollection.from_config c.to_config) }),
           { inst with
              state :=
                { inst.state with
                    batch_size := kw.batch_size.getD 32
                    training_size :=
                      (validationSizing
                        (derivedTrainingSize x (kw.batch_size.getD 32)) kw).1
                    validation_size :=
                      (validationSizing
                        (derivedTrainingSize x (kw.batch_size.getD 32)) kw).2
                    agg_metrics := some c
                    execution_trained := inst.state.execution_trained + 1 }
              metrics_config := some c.to_config
              executionsCount := inst.executionsCount + 1 }) := by
  simp only [fit, hnone, hinit]

/-- Claim C3: the loss-normalization code is supposed to register every
declared loss for all three forms of `model.loss`, but its dict branch reads
the local `losses` before assignment (`losses = list(losses.keys())`,
line 94, instead of `list(self.model.loss.keys())`), so a mapping-of-named-
losses model crashes with `UnboundLocalError` during schema initialization
instead of registering its losses; the single-name and list forms do
register every loss as a min-direction Metric. -/
theorem loss_mapping_unbound_local :
    initAggMetrics ⟨[], .mapping [("out", .str "mse")], none⟩ 0 "out" =
      .error (.unboundLocalError "losses") ∧
    initAggMetrics ⟨[], .single "mse", none⟩ 0 "loss" =
      .ok ⟨[⟨"loss", .min, true⟩]⟩ ∧
    initAggMetrics ⟨[], .listOf [.str "a", .str "b"], none⟩ 0 "a" =
      .ok ⟨[⟨"a", .min, true⟩, ⟨"b", .min, false⟩]⟩ := by
  refine ⟨rfl, ?_, ?_⟩ <;> rfl

/-- Claim C4: the per-instance schema is built exactly once. If the schema is
already set, any further `fit` call — whatever its batch size or validation
options — leaves `agg_metrics` and `metrics_config` unchanged; if it is
unset, a successful `fit` sets it together with its serialized config. -/
theorem schema_init_once (ts : TunerState) (inst : InstanceObj)
    (x : FitInput) (kw : FitKwargs) :
    (∀ c, inst.state.agg_metrics = some c →
      ∃ p, fit ts inst x kw = .ok p ∧
        p.2.state.agg_metrics = some c ∧
        p.2.metrics_config = inst.metrics_config) ∧
    (∀ p, inst.state.agg_metrics = none → fit ts inst x kw = .ok p →
      ∃ c, p.2.state.agg_metrics = some c ∧
        p.2.metrics_config = some c.to_config) := by
  constructor
  · intro c h
    exact ⟨_, fit_of_schema_set ts inst x kw c h, h, rfl⟩
  · intro p hnone hfit
    simp only [fit, hnone] at hfit
    cases hinit : initAggMetrics inst.model
        (validationSizing (derivedTrainingSize x (kw.batch_size.getD 32))
          kw).2 ts.objective with
    | error e => rw [hinit] at hfit; exact absurd hfit (by simp)
    | ok c =>
      rw [hinit] at hfit
      simp only [Except.ok.injEq] at hfit
      exact ⟨c, by rw [← hfit], by rw [← hfit]⟩

/-- The schema construction that the first `fit` of `instFresh` with no
validation options performs. -/
theorem initAggMetrics_fresh_eval :
    initAggMetrics sampleModel
      (validationSizing (derivedTrainingSize (.array 5) 32)
        ⟨none, none, none⟩).2 "loss" = .ok mcFreshBuilt := rfl

/-- Witness for C4 at concrete inputs: an instance with its schema set keeps
it across a `fit`; a fresh instance gets its schema set by its first
`fit`. -/
theorem schema_init_once_witness :
    (∃ p, fit tsReady instReady (.array 5) ⟨none, none, none⟩ = .ok p ∧
      p.2.state.agg_metrics = some mcLoss ∧
      p.2.metrics_config = instReady.metrics_config) ∧
    (∃ p, fit tsFresh instFresh (.array 5) ⟨none, none, none⟩ = .ok p ∧
      ∃ c, p.2.state.agg_metrics = some c ∧
        p.2.metrics_config = some c.to_config) := by
  constructor
  · exact (schema_init_once tsReady instReady (.array 5)
      ⟨none, none, none⟩).1 mcLoss rfl
  · have hfit := fit_of_schema_unset tsFresh instFresh (.array 5)
      ⟨none, none, none⟩ mcFreshBuilt rfl initAggMetrics_fresh_eval
    exact ⟨_, hfit, (schema_init_once tsFresh instFresh (.array 5)
      ⟨none, none, none⟩).2 _ rfl hfit⟩

/-- Claim C5: once the tuner-level schema is set, no instance schema
initialization replaces it; when a first `fit` does adopt it, the
tuner-level collection is the one constructed by
`MetricsCollection.from_config` from the serialized config, and it is
structurally equal to (though constructed independently of) the instance's
own collection. -/
theorem tuner_schema_adoption (ts : TunerState) (inst : InstanceObj)
    (x : FitInput) (kw : FitKwargs) :
    (∀ c p, ts.agg_metrics = some c → fit ts inst x kw = .ok p →
      p.1.agg_metrics = some c) ∧
    (∀ p, ts.agg_metrics = none → inst.state.agg_metrics = none →
      fit ts inst x kw = .ok p →
      ∃ c, p.2.state.agg_metrics = some c ∧
        p.1.agg_metrics = some (MetricsCollection.from_config c.to_config) ∧
        MetricsCollection.from_config c.to_config = c) := by
  constructor
  · intro c p hts hfit
    cases hagg : inst.state.agg_metrics with
    | some c' =>
      rw [fit_of_schema_set ts inst x kw c' hagg] at hfit
      simp only [Except.ok.injEq] at hfit
      rw [← hfit, hts]
    | none =>
      simp only [fit, hagg] at hfit
      cases hinit : initAggMetrics inst.model
          (validationSizing (derivedTrainingSize x (kw.batch_size.getD 32))
            kw).2 ts.objective with
      | error e => rw [hinit] at hfit; exact absurd hfit (by simp)
      | ok c'' =>
        rw [hinit] at hfit
        simp only [Except.ok.injEq] at hfit
        rw [← hfit]
        simp [hts]
  · intro p hts hagg hfit
    simp only [fit, hagg] at hfit
    cases hinit : initAggMetrics inst.model
        (validationSizing (derivedTrainingSize x (kw.batch_size.getD 32))
          kw).2 ts.objective with
    | error e => rw [hinit] at hfit; exact absurd hfit (by simp)
    | ok c =>
      rw [hinit] at hfit
      simp only [Except.ok.injEq] at hfit
      refine ⟨c, ?_, ?_, from_to_config c⟩
      · rw [← hfit]
      · rw [← hfit]
        simp [hts]

/-- Witness for C5 at concrete inputs: a `fit` against an already-set tuner
schema leaves it in place; a first `fit` against a fresh tuner state adopts
the reconstructed, structurally equal schema. -/
theorem tuner_schema_adoption_witness :
    (∃ p, fit tsReady instReady (.array 7) ⟨none, none, none⟩ = .ok p ∧
      p.1.agg_metrics = some mcLoss) ∧
    (∃ p, fit tsFresh instFresh (.array 5) ⟨none, none, none⟩ = .ok p ∧
      ∃ c, p.2.state.agg_metrics = some c ∧
        p.1.agg_metrics = some (MetricsCollection.from_config c.to_config) ∧
        MetricsCollection.from_config c.to_config = c) := by
  constructor
  · have hfit := fit_of_schema_set tsReady instReady (.array 7)
      ⟨none, none, none⟩ mcLoss rfl
    exact ⟨_, hfit, (tuner_schema_adoption tsReady instReady (.array 7)
      ⟨none, none, none⟩).1 mcLoss _ rfl hfit⟩
  · have hfit := fit_of_schema_unset tsFresh instFresh (.array 5)
      ⟨none, none, none⟩ mcFreshBuilt rfl initAggMetrics_fresh_eval
    exact ⟨_, hfit, (tuner_schema_adoption tsFresh instFresh (.array 5)
      ⟨none, none, none⟩).2 _ rfl rfl hfit⟩

/-! Embedding of `Instance.record_results` (lines 139-212). The method's
environment is broken — see `record_results` below — so the aggregation
pipeline of lines 149-198 is embedded as `recordResultsCore`, a function of
the executions and of the configuration values the environment would have
to supply. -/

/-- Python dict lookup on an ordered association list. -/
def aLookup : List (String × α) → String → Option α
  | [], _ => none
  | (k, v) :: rest, key => if k = key then some v else aLookup rest key

/-- Python dict assignment: overwrite in place, else append. -/
def setKey : List (String × α) → String → α → List (String × α)
  | [], key, v => [(key, v)]
  | (k, v') :: rest, key, v =>
    if k = key then (k, v) :: rest else (k, v') :: setKey rest key v

/-- The per-metric record an `Execution` holds after training:
`{min, max, history}`. -/
structure ExecMetricData where
  min : ℚ
  max : ℚ
  history : List ℚ
deriving DecidableEq, Repr

/-- The slice of an `Execution` (and of its retained model) that
`record_results` reads. -/
structure ExecutionR where
  metrics : List (String × ExecMetricData)
  num_epochs : Nat
  history : List (String × List ℚ)
  loss : Loss
  loss_weights : Option (List ℚ)
  meta_data : List (String × String)
deriving DecidableEq, Repr

/-- Append one execution's extrema for `name` into the accumulator,
mirroring `defaultdict(lambda: defaultdict(list))` with Python's
insertion-ordered dict semantics (lines 149-158). -/
def appendExtrema (acc : List (String × List ℚ × List ℚ)) (name : String)
    (mn mx : ℚ) : List (String × List ℚ × List ℚ) :=
  match acc with
  | [] => [(name, [mn], [mx])]
  | (n, mns, mxs) :: rest =>
    if n = name then (n, mns ++ [mn], mxs ++ [mx]) :: rest
    else (n, mns, mxs) :: appendExtrema rest name mn mx

/-- Lines 151-158: collect every execution's per-metric `min` and `max`
lists into `exec_metrics`. -/
def collectExecMetrics (execs : List ExecutionR) :
    List (String × List ℚ × List ℚ) :=
  execs.foldl
    (fun acc e =>
      e.metrics.foldl (fun a nd => appendExtrema a nd.1 nd.2.min nd.2.max)
        acc)
    []

/-- Numpy `np.min` over a nonempty list (`record_results` never applies it
to an empty one; the `0` default is out of reach). -/
def npMin : List ℚ → ℚ
  | [] => 0
  | h :: t => t.foldl min h

/-- Numpy `np.max` over a nonempty list. -/
def npMax : List ℚ → ℚ
  | [] => 0
  | h :: t => t.foldl max h

/-- Numpy `np.mean`: arithmetic mean, exact. -/
def npMean (l : List ℚ) : ℚ := l.sum / l.length

/-- Numpy `np.median`: middle element of the sorted list, or the average
of the two middle elements for even length. -/
def npMedian (l : List ℚ) : ℚ :=
  let sorted := l.mergeSort (fun a b => a ≤ b)
  if l.length % 2 = 1 then sorted.getD (l.length / 2) 0
  else (sorted.getD (l.length / 2 - 1) 0 + sorted.getD (l.length / 2) 0) / 2

/-- The four aggregate statistics recorded per metric and direction. -/
structure Stats where
  min : ℚ
  max : ℚ
  mean : ℚ
  median : ℚ
deriving DecidableEq, Repr

/-- Lines 187-192: the statistics of one direction's list. -/
def statsOf (data : List ℚ) : Stats :=
  ⟨npMin data, npMax data, npMean data, npMedian data⟩

/-- Lines 184-193: aggregate statistics for both directions of every
collected metric. -/
def aggregateMetrics (em : List (String × List ℚ × List ℚ)) :
    List (String × Stats × Stats) :=
  em.map (fun e => (e.1, statsOf e.2.1, statsOf e.2.2))

/-- Whether `json.dumps` succeeds on a dict value. -/
def LossVal.jsonSerializable : LossVal → Bool
  | .str _ => true
  | .callableObj _ => false

/-- Whether `json.dumps` succeeds on a list item. -/
def PyName.jsonSerializable : PyName → Bool
  | .str _ => true
  | .obj _ => false

/-- Whether `json.dumps(execution.model.loss)` succeeds (line 161). -/
def Loss.jsonSerializable : Loss → Bool
  | .single _ => true
  | .callableLoss _ => false
  | .mapping entries => entries.all (fun e => e.2.jsonSerializable)
  | .listOf items => items.all (fun i => i.jsonSerializable)

/-- The `loss_fn` field of an execution record: the loss descriptor itself
when serializable, the sentinel `"CUSTOM"` otherwise. -/
inductive LossFnField
  | descr (l : Loss)
  | custom
deriving DecidableEq, Repr

/-- Lines 160-164: best-effort serialization with `"CUSTOM"` fallback. -/
def reportedLossFns (l : Loss) : LossFnField :=
  if l.jsonSerializable then .descr l else .custom

/-- One entry of the record's `executions` list (lines 167-173). -/
structure ExecutionInfo where
  num_epochs : Nat
  history : List (String × List ℚ)
  loss_fn : LossFnField
  loss_weights : Option (List ℚ)
  meta_data : List (String × String)
deriving DecidableEq, Repr

/-- Lines 167-173: the execution record built for each execution. -/
def buildExecutionInfo (e : ExecutionR) : ExecutionInfo :=
  { num_epochs := e.num_epochs
    history := e.history
    loss_fn := reportedLossFns e.loss
    loss_weights := e.loss_weights
    meta_data := e.meta_data }

/-- The `min`/`max` sub-dict selection `metrics[name][direction]`. -/
def dirStats (p : Stats × Stats) : Direction → Stats
  | .min => p.1
  | .max => p.2

/-- One iteration of the key-metrics loop (lines 196-198): copy the median
of the aggregated entry for `tm` when present, skip otherwise. -/
def projectStep (metrics : List (String × Stats × Stats))
    (acc : List (String × ℚ)) (tm : String × Direction) :
    List (String × ℚ) :=
  match aLookup metrics tm.1 with
  | some p => setKey acc tm.1 (dirStats p tm.2).median
  | none => acc

/-- Lines 195-198: copy each configured key metric's median into the flat
`key_metrics` mapping, silently skipping names absent from the aggregated
map. `results['key_metrics']` starts empty (modelled from the spec: the
flat summary is built here; its container comes from the undefined
`__get_instance_info`). -/
def projectKeyMetrics (key_metrics : List (String × Direction))
    (metrics : List (String × Stats × Stats)) : List (String × ℚ) :=
  key_metrics.foldl (projectStep metrics) []

/-- The persisted result record (top-level keys of lines 180-198). -/
structure ResultsRecord where
  executions : List ExecutionInfo
  metrics : List (String × Stats × Stats)
  key_metrics : List (String × ℚ)
  meta_data : List (String × String)
deriving DecidableEq, Repr

/-- Lines 149-198: the aggregation pipeline of `record_results`, given the
executions and the configuration (`self.key_metrics`, `self.meta_data`)
that the environment would have to supply. -/
def recordResultsCore (execs : List ExecutionR)
    (key_metrics : List (String × Direction))
    (meta_data : List (String × String)) : ResultsRecord :=
  let metrics := aggregateMetrics (collectExecMetrics execs)
  { executions := execs.map buildExecutionInfo
    metrics := metrics
    key_metrics := projectKeyMetrics key_metrics metrics
    meta_data := meta_data }

/-- The list of per-execution recorded minima for `name`, read directly off
the executions. -/
def execMins (execs : List ExecutionR) (name : String) : List ℚ :=
  execs.filterMap (fun e => (aLookup e.metrics name).map (fun d => d.min))

/-- The list of per-execution recorded maxima for `name`. -/
def execMaxs (execs : List ExecutionR) (name : String) : List ℚ :=
  execs.filterMap (fun e => (aLookup e.metrics name).map (fun d => d.max))

/-- A sample pair of executions over one metric `loss`, the first with a
serializable single loss, the second with a custom callable loss. -/
def sampleExecs : List ExecutionR :=
  [⟨[("loss", ⟨1, 3, [3, 1]⟩)], 2, [("loss", [3, 1])], .single "mse",
    none, [("idx", "0")]⟩,
   ⟨[("loss", ⟨2, 5, [5, 2]⟩)], 2, [("loss", [5, 2])], .callableLoss "fn",
    none, [("idx", "1")]⟩]

/-- Claim C9: the record built by the aggregation pipeline has exactly one
`executions` entry per execution run, and each entry carries the epoch
count, the history, the loss descriptor (or the `"CUSTOM"` fallback), the
loss weights and the execution's metadata. -/
theorem result_record_executions (execs : List ExecutionR)
    (km : List (String × Direction)) (md : List (String × String)) :
    (recordResultsCore execs km md).executions.length = execs.length ∧
    (recordResultsCore execs km md).executions =
      execs.map (fun e =>
        ⟨e.num_epochs, e.history, reportedLossFns e.loss, e.loss_weights,
         e.meta_data⟩) :=
  ⟨List.length_map _ _, rfl⟩

/-- Claim C7: each execution record's `loss_fn` is the loss descriptor when
`json.dumps` succeeds on it and the sentinel `"CUSTOM"` otherwise, and in
both cases the record is still built, with all its other fields intact,
inside the result's `executions` list. -/
theorem loss_fn_fallback (execs : List ExecutionR)
    (km : List (String × Direction)) (md : List (String × String))
    (e : ExecutionR) (he : e ∈ execs) :
    buildExecutionInfo e ∈ (recordResultsCore execs km md).executions ∧
    (e.loss.jsonSerializable = true →
      (buildExecutionInfo e).loss_fn = .descr e.loss) ∧
    (e.loss.jsonSerializable = false →
      (buildExecutionInfo e).loss_fn = .custom) ∧
    (buildExecutionInfo e).num_epochs = e.num_epochs ∧
    (buildExecutionInfo e).history = e.history ∧
    (buildExecutionInfo e).loss_weights = e.loss_weights ∧
    (buildExecutionInfo e).meta_data = e.meta_data := by
  refine ⟨List.mem_map_of_mem buildExecutionInfo he, ?_, ?_, rfl, rfl, rfl,
    rfl⟩
  · intro h
    simp [buildExecutionInfo, reportedLossFns, h]
  · intro h
    simp [buildExecutionInfo, reportedLossFns, h]

/-- Witness for C7 at concrete inputs: in `sampleExecs`, the first
execution's loss serializes and is recorded as the descriptor; applying the
claim to the second (custom callable) execution gives the `"CUSTOM"`
fallback with the record still present. -/
theorem loss_fn_fallback_witness :
    (buildExecutionInfo (sampleExecs.get ⟨1, by decide⟩) ∈
      (recordResultsCore sampleExecs [] []).executions ∧
     ((sampleExecs.get ⟨1, by decide⟩).loss.jsonSerializable = true →
       (buildExecutionInfo (sampleExecs.get ⟨1, by decide⟩)).loss_fn =
         .descr (sampleExecs.get ⟨1, by decide⟩).loss) ∧
     ((sampleExecs.get ⟨1, by decide⟩).loss.jsonSerializable = false →
       (buildExecutionInfo (sampleExecs.get ⟨1, by decide⟩)).loss_fn =
         .custom) ∧
     (buildExecutionInfo (sampleExecs.get ⟨1, by decide⟩)).num_epochs =
       (sampleExecs.get ⟨1, by decide⟩).num_epochs ∧
     (buildExecutionInfo (sampleExecs.get ⟨1, by decide⟩)).history =
       (sampleExecs.get ⟨1, by decide⟩).history ∧
     (buildExecutionInfo (sampleExecs.get ⟨1, by decide⟩)).loss_weights =
       (sampleExecs.get ⟨1, by decide⟩).loss_weights ∧
     (buildExecutionInfo (sampleExecs.get ⟨1, by decide⟩)).meta_data =
       (sampleExecs.get ⟨1, by decide⟩).meta_data) ∧
    (sampleExecs.get ⟨1, by decide⟩).loss.jsonSerializable = false :=
  ⟨loss_fn_fallback sampleExecs [] [] _ (List.get_mem _ _ _), rfl⟩

/-- The accumulated `(mins, maxes)` lists for a metric name, `([], [])`
when the name has not been touched yet. -/
def getLists (acc : List (String × List ℚ × List ℚ)) (k : String) :
    List ℚ × List ℚ :=
  (aLookup acc k).getD ([], [])

theorem aLookup_eq_none_of_not_mem {α : Type} (m : List (String × α))
    (k : String) (h : k ∉ m.map Prod.fst) : aLookup m k = none := by
  induction m with
  | nil => rfl
  | cons p rest ih =>
    simp only [List.map_cons, List.mem_cons, not_or] at h
    simp [aLookup, Ne.symm h.1, ih h.2]

theorem getLists_appendExtrema (acc : List (String × List ℚ × List ℚ))
    (n k : String) (mn mx : ℚ) :
    getLists (appendExtrema acc n mn mx) k =
      if k = n then ((getLists acc k).1 ++ [mn], (getLists acc k).2 ++ [mx])
      else getLists acc k := by
  induction acc with
  | nil =>
    by_cases h : k = n
    · subst h; simp [appendExtrema, getLists, aLookup]
    · simp [appendExtrema, getLists, aLookup, h, Ne.symm h]
  | cons p rest ih =>
    obtain ⟨n0, mns, mxs⟩ := p
    by_cases h0 : n0 = n
    · subst h0
      by_cases h : k = n0
      · subst h; simp [appendExtrema, getLists, aLookup]
      · simp [appendExtrema, getLists, aLookup, h, Ne.symm h]
    · by_cases h : n0 = k
      · subst h
        simp [appendExtrema, getLists, aLookup, h0, Ne.symm h0]
      · simp [appendExtrema, getLists, aLookup, h0, h] at ih ⊢
        exact ih

/-- Folding one execution's metrics dict into the accumulator appends its
`min`/`max` to exactly the names the dict holds. -/
theorem innerFold_getLists (ms : List (String × ExecMetricData))
    (hnodup : (ms.map Prod.fst).Nodup) (acc : List (String × List ℚ × List ℚ))
    (k : String) :
    getLists
        (ms.foldl (fun a nd => appendExtrema a nd.1 nd.2.min nd.2.max) acc)
        k =
      match aLookup ms k with
      | some d =>
          ((getLists acc k).1 ++ [d.min], (getLists acc k).2 ++ [d.max])
      | none => getLists acc k := by
  induction ms generalizing acc with
  | nil => simp [aLookup]
  | cons nd rest ih =>
    obtain ⟨n, d⟩ := nd
    have hparts : n ∉ rest.map Prod.fst ∧ (rest.map Prod.fst).Nodup := by
      simpa only [List.map_cons, List.nodup_cons] using hnodup
    simp only [List.foldl_cons]
    rw [ih hparts.2]
    by_cases h : n = k
    · subst h
      have hrest : aLookup rest n = none :=
        aLookup_eq_none_of_not_mem rest n hparts.1
      simp [aLookup, hrest, getLists_appendExtrema]
    · have hgl : getLists (appendExtrema acc n d.min d.max) k =
          getLists acc k := by
        rw [getLists_appendExtrema]
        simp [Ne.symm h]
      cases haux : aLookup rest k <;> simp [aLookup, h, haux, hgl]

/-- Folding a list of executions accumulates, name by name, the directly
extracted lists of per-execution minima and maxima. -/
theorem outerFold_getLists (execs : List ExecutionR)
    (hnodup : ∀ e ∈ execs, (e.metrics.map Prod.fst).Nodup)
    (acc : List (String × List ℚ × List ℚ)) (k : String) :
    getLists
        (execs.foldl
          (fun acc e =>
            e.metrics.foldl
              (fun a nd => appendExtrema a nd.1 nd.2.min nd.2.max) acc)
          acc) k =
      ((getLists acc k).1 ++ execMins execs k,
       (getLists acc k).2 ++ execMaxs execs k) := by
  induction execs generalizing acc with
  | nil => simp [execMins, execMaxs]
  | cons e rest ih =>
    simp only [List.foldl_cons]
    rw [ih (fun e' he' => hnodup e' (List.mem_cons_of_mem _ he'))]
    rw [innerFold_getLists e.metrics (hnodup e (List.mem_cons_self _ _))]
    cases h : aLookup e.metrics k with
    | some d =>
      simp [execMins, execMaxs, List.filterMap_cons, h, List.append_assoc]
    | none => simp [execMins, execMaxs, List.filterMap_cons, h]

/-- `exec_metrics` holds, for every measured name, exactly the list of
per-execution minima and the list of per-execution maxima. -/
theorem collect_getLists (execs : List ExecutionR)
    (hnodup : ∀ e ∈ execs, (e.metrics.map Prod.fst).Nodup) (k : String) :
    getLists (collectExecMetrics execs) k =
      (execMins execs k, execMaxs execs k) := by
  have h := outerFold_getLists execs hnodup [] k
  simpa [collectExecMetrics, getLists, aLookup] using h

theorem aLookup_aggregateMetrics (em : List (String × List ℚ × List ℚ))
    (k : String) :
    aLookup (aggregateMetrics em) k =
      (aLookup em k).map (fun p => (statsOf p.1, statsOf p.2)) := by
  induction em with
  | nil => rfl
  | cons p rest ih =>
    obtain ⟨n, mns, mxs⟩ := p
    simp only [aggregateMetrics, List.map_cons] at ih ⊢
    by_cases h : n = k <;> simp [aLookup, h, ih]

/-- Claim C6: for every metric name measured by at least one execution, the
aggregated entry records, for the `min` direction, the min/max/mean/median
computed directly over the list of per-execution minima, and for the `max`
direction the same statistics computed directly over the list of
per-execution maxima. -/
theorem aggregation_stats (execs : List ExecutionR)
    (km : List (String × Direction)) (md : List (String × String))
    (name : String)
    (hnodup : ∀ e ∈ execs, (e.metrics.map Prod.fst).Nodup)
    (hsome : execMins execs name ≠ []) :
    aLookup (recordResultsCore execs km md).metrics name =
      some
        (⟨npMin (execMins execs name), npMax (execMins execs name),
          npMean (execMins execs name), npMedian (execMins execs name)⟩,
         ⟨npMin (execMaxs execs name), npMax (execMaxs execs name),
          npMean (execMaxs execs name), npMedian (execMaxs execs name)⟩) := by
  have hgl := collect_getLists execs hnodup name
  have hlk : aLookup (collectExecMetrics execs) name =
      some (execMins execs name, execMaxs execs name) := by
    cases h : aLookup (collectExecMetrics execs) name with
    | none =>
      simp only [getLists, h, Option.getD_none] at hgl
      exact absurd (congrArg Prod.fst hgl.symm) hsome
    | some p =>
      simp only [getLists, h, Option.getD_some] at hgl
      rw [hgl]
  show aLookup (aggregateMetrics (collectExecMetrics execs)) name = _
  rw [aLookup_aggregateMetrics, hlk]
  simp [statsOf]

/-- Witness for C6 at concrete inputs: over `sampleExecs`, the metric
`loss` has per-execution minima `[1, 2]` and maxima `[3, 5]`, and the
aggregated entry holds their direct statistics. -/
theorem aggregation_stats_witness :
    aLookup (recordResultsCore sampleExecs [] []).metrics "loss" =
      some
        (⟨npMin [1, 2], npMax [1, 2], npMean [1, 2], npMedian [1, 2]⟩,
         ⟨npMin [3, 5], npMax [3, 5], npMean [3, 5], npMedian [3, 5]⟩) := by
  have h := aggregation_stats sampleExecs [] [] "loss" (by decide) (by decide)
  simpa [execMins, execMaxs, sampleExecs, aLookup] using h

theorem aLookup_setKey {α : Type} (m : List (String × α)) (k : String)
    (v : α) (k' : String) :
    aLookup (setKey m k v) k' = if k = k' then some v else aLookup m k' := by
  induction m with
  | nil =>
    by_cases h : k = k' <;> simp [setKey, aLookup, h]
  | cons p rest ih =>
    obtain ⟨k0, v0⟩ := p
    by_cases h0 : k0 = k
    · subst h0
      by_cases h : k0 = k' <;> simp [setKey, aLookup, h, ih]
    · by_cases h : k0 = k'
      · subst h
        have hkk : ¬k = k0 := fun hk => h0 hk.symm
        simp [setKey, aLookup, h0, hkk]
      · simp [setKey, aLookup, h0, h, ih]

/-- A projection step for a key different from `name` never touches
`name`'s entry. -/
theorem projectStep_other (metrics : List (String × Stats × Stats))
    (acc : List (String × ℚ)) (tm : String × Direction) (name : String)
    (h : tm.1 ≠ name) :
    aLookup (projectStep metrics acc tm) name = aLookup acc name := by
  cases hm : aLookup metrics tm.1 <;>
    simp [projectStep, hm, aLookup_setKey, h]

/-- Key-metric entries whose name never occurs in the configured list are
never written. -/
theorem projectFold_untouched (km : List (String × Direction))
    (metrics : List (String × Stats × Stats)) (acc : List (String × ℚ))
    (name : String) (h : name ∉ km.map Prod.fst) :
    aLookup (km.foldl (projectStep metrics) acc) name = aLookup acc name := by
  induction km generalizing acc with
  | nil => rfl
  | cons tm rest ih =>
    simp only [List.map_cons, List.mem_cons, not_or] at h
    rw [List.foldl_cons, ih _ h.2, projectStep_other _ _ _ _ (Ne.symm h.1)]

/-- The key-metrics fold writes, for a configured `(name, dir)` pair, the
median of the aggregated entry when the name is present and leaves `name`
untouched when it is absent. -/
theorem projectFold_found (km : List (String × Direction))
    (metrics : List (String × Stats × Stats)) (name : String)
    (dir : Direction) (hmem : (name, dir) ∈ km)
    (hnodup : (km.map Prod.fst).Nodup) (acc : List (String × ℚ)) :
    aLookup (km.foldl (projectStep metrics) acc) name =
      match aLookup metrics name with
      | some p => some (dirStats p dir).median
      | none => aLookup acc name := by
  induction km generalizing acc with
  | nil => cases hmem
  | cons tm rest ih =>
    obtain ⟨n, d⟩ := tm
    have hparts : n ∉ rest.map Prod.fst ∧ (rest.map Prod.fst).Nodup := by
      simpa only [List.map_cons, List.nodup_cons] using hnodup
    rcases List.mem_cons.mp hmem with heq | hrest
    · simp only [Prod.mk.injEq] at heq
      obtain ⟨rfl, rfl⟩ := heq
      rw [List.foldl_cons, projectFold_untouched rest metrics _ name hparts.1]
      cases h : aLookup metrics name with
      | some p => simp [projectStep, h, aLookup_setKey]
      | none => simp [projectStep, h]
    · have hne : n ≠ name := by
        intro hn
        subst hn
        exact hparts.1 (List.mem_map_of_mem Prod.fst hrest)
      rw [List.foldl_cons, ih hrest hparts.2]
      cases h : aLookup metrics name with
      | some p => simp [h]
      | none => simp [h, projectStep_other metrics acc (n, d) name hne]

/-- Claim C8: for every configured key-metric pair `(name, dir)`, the flat
`key_metrics` mapping holds the median of the aggregated entry for `name`
and `dir` when `name` is aggregated, and silently holds nothing for `name`
when it is not (the loop runs to completion either way). -/
theorem key_metrics_projection (execs : List ExecutionR)
    (km : List (String × Direction)) (md : List (String × String))
    (name : String) (dir : Direction) (hmem : (name, dir) ∈ km)
    (hnodup : (km.map Prod.fst).Nodup) :
    (∀ p, aLookup (recordResultsCore execs km md).metrics name = some p →
      aLookup (recordResultsCore execs km md).key_metrics name =
        some (dirStats p dir).median) ∧
    (aLookup (recordResultsCore execs km md).metrics name = none →
      aLookup (recordResultsCore execs km md).key_metrics name = none) := by
  have hbase := projectFold_found km
    (aggregateMetrics (collectExecMetrics execs)) name dir hmem hnodup []
  constructor
  · intro p hp
    show aLookup
        (km.foldl (projectStep (aggregateMetrics (collectExecMetrics execs)))
          []) name = _
    rw [hbase]
    rw [show aLookup (aggregateMetrics (collectExecMetrics execs)) name =
        some p from hp]
  · intro hp
    show aLookup
        (km.foldl (projectStep (aggregateMetrics (collectExecMetrics execs)))
          []) name = _
    rw [hbase]
    rw [show aLookup (aggregateMetrics (collectExecMetrics execs)) name =
        none from hp]
    rfl

/-- The sample key-metrics configuration: one aggregated name, one name
absent from the aggregated map. -/
def kmSample : List (String × Direction) :=
  [("loss", Direction.min), ("val_loss", Direction.max)]

/-- Witness for C8 at concrete inputs: over `sampleExecs`, the configured
key metric `loss` is copied (its min-direction median), while the
configured `val_loss` is absent from the aggregated map and is skipped
without error. -/
theorem key_metrics_projection_witness :
    aLookup (recordResultsCore sampleExecs kmSample []).key_metrics "loss" =
      some (dirStats (statsOf [1, 2], statsOf [3, 5]) Direction.min).median ∧
    aLookup (recordResultsCore sampleExecs kmSample []).key_metrics
      "val_loss" = none := by
  constructor
  · exact (key_metrics_projection sampleExecs kmSample [] "loss"
      Direction.min (by decide) (by decide)).1
      (statsOf [1, 2], statsOf [3, 5]) rfl
  · exact (key_metrics_projection sampleExecs kmSample [] "val_loss"
      Direction.max (by decide) (by decide)).2 rfl

/-! Embedding of the environment of `record_results` itself. The method
body references names through `self` (attributes and methods) and through
the module's global scope; several of them are nowhere defined. -/

/-- A name the body of `record_results` resolves: an attribute of `self`
(methods included) or a module-level global. -/
inductive NameRef
  | attr (s : String)
  | global (s : String)
deriving DecidableEq, Repr

/-- The attributes `Instance.__init__` sets (lines 17-26). -/
def instanceAttrs : List String :=
  ["model", "tuner_state", "cloudservice", "executions", "state",
   "metrics_config"]

/-- The methods `class Instance` defines (lines 14-212). -/
def instanceMethods : List String :=
  ["__init__", "summary", "resume_fit", "fit", "record_results"]

/-- The module-level names `instance.py` binds: its imports (lines 1-11)
and the class itself. Neither `np` nor `file_io` is among them. -/
def moduleGlobals : List String :=
  ["json", "time", "defaultdict", "path", "tf", "Execution", "Metric",
   "InstanceState", "ExecutionsCollection", "MetricsCollection", "section",
   "subsection", "fatal", "Instance"]

/-- Whether a reference resolves; `extra` lists attribute names a caller
may have injected on the instance after construction (module globals are
fixed by the source). -/
def resolves (extra : List String) : NameRef → Bool
  | .attr s =>
      instanceAttrs.contains s || instanceMethods.contains s ||
        extra.contains s
  | .global s => moduleGlobals.contains s

/-- The references the body of `record_results` makes, in source order up
to and including the `file_io` lookup that guards the JSON write at line
204, for a run whose execution loop (lines 151-178) iterates `n` times;
`hasMetrics` says whether any execution contributed a metric (the `np`
references of lines 188-191 sit inside the aggregation loop, which
otherwise does not run). `self.__get_instance_info` is name-mangled to
`_Instance__get_instance_info`. -/
def recordResultsRefs (n : Nat) (hasMetrics : Bool) : List NameRef :=
  [.attr "_Instance__get_instance_info",
   .attr "meta_data",
   .global "defaultdict",
   .attr "executions"] ++
  (List.replicate n
    [NameRef.global "json", .attr "_clear_gpu_memory"]).flatten ++
  [.attr "meta_data",
   .global "defaultdict"] ++
  (if hasMetrics then [NameRef.global "np"] else []) ++
  [.attr "key_metrics",
   .attr "meta_data",
   .global "path",
   .global "file_io"]

/-- The first reference that fails to resolve, i.e. where the method
raises. -/
def firstFailure (extra : List String) (refs : List NameRef) :
    Option NameRef :=
  refs.find? (fun r => !resolves extra r)

/-- Lines 139-212, `Instance.record_results`: resolve the references the
body makes in order; an unresolved attribute raises `AttributeError`, an
unresolved global raises `NameError`, and only if every reference up to
the write resolves is the aggregated record produced and written. -/
def record_results (execs : List ExecutionR)
    (km : List (String × Direction)) (md : List (String × String))
    (extra : List String) : Except PyErr ResultsRecord :=
  match firstFailure extra
      (recordResultsRefs execs.length
        (!(collectExecMetrics execs).isEmpty)) with
  | some (.attr s) => .error (.attributeError s)
  | some (.global s) => .error (.nameError s)
  | none => .ok (recordResultsCore execs km md)

/-- Claim C10: every call to `record_results` raises before writing a
record — even if a caller injects the attributes the class never sets, the
global `file_io` (and `np`) can never resolve — and on a plain instance
the very first statement raises `AttributeError` for the name-mangled
`_Instance__get_instance_info`. -/
theorem record_results_always_raises (execs : List ExecutionR)
    (km : List (String × Direction)) (md : List (String × String))
    (extra : List String) :
    (∃ e, record_results execs km md extra = .error e) ∧
    record_results execs km md [] =
      .error (.attributeError "_Instance__get_instance_info") := by
  constructor
  · have hmem : NameRef.global "file_io" ∈
        recordResultsRefs execs.length
          (!(collectExecMetrics execs).isEmpty) := by
      simp [recordResultsRefs]
    have hfail : (!resolves extra (NameRef.global "file_io")) = true := by
      simp [resolves, moduleGlobals]
    have hsome : (List.find? (fun r => !resolves extra r)
        (recordResultsRefs execs.length
          (!(collectExecMetrics execs).isEmpty))).isSome := by
      rw [List.find?_isSome]
      exact ⟨_, hmem, hfail⟩
    obtain ⟨r, hr⟩ := Option.isSome_iff_exists.mp hsome
    cases r with
    | attr s =>
      exact ⟨.attributeError s, by simp [record_results, firstFailure, hr]⟩
    | global s =>
      exact ⟨.nameError s, by simp [record_results, firstFailure, hr]⟩
  · rfl

end KT
